import Mathlib

/-!
Verification of the tool-calling conversation core of the finance-intel MCP
client (files `bot.py`, `main_claude.py`, `bot_oss.py`).

The development shallowly embeds the Python code:

* `PyVal` models the Python values flowing through the normalizer
  (strings, numbers, booleans, `None`, lists, dicts, and opaque objects
  carrying attributes and a `repr` string; an object may or may not expose
  a pydantic-style `model_dump`).
* `jsonDumps` models `json.dumps(..., ensure_ascii=False)` as a partial
  function: it fails (returns `Option.none`, the `TypeError` path) exactly
  on values containing an opaque object.
* `pyStr` / `pyRepr` model Python `str` / `repr`.
* `toTextSegment`, `normalize` embed `_to_text_segment` and the surrounding
  result-normalization logic of `ask_claude_with_mcp` (bot.py lines 270-303).
* `runLoop` / `runExchange` embed the tool-calling loop of
  `ask_claude_with_mcp`, with the language-model service supplied as a
  script of responses and the tool service as a function into `Except`.
* `claudeToolSchemas` embeds `MCPBridge.claude_tool_schemas`.
* `parseAllowedIds` / `isUserAllowed` embed `_parse_allowed_ids` and
  `_is_user_allowed`.
-/

/-- Python values as seen by the normalizer.  `obj attrs hasDump rep` is an
arbitrary non-JSON-serializable object with attribute list `attrs`, a flag
telling whether it exposes a pydantic-style `model_dump`, and its `repr`
string. -/
inductive PyVal where
  | none
  | bool (b : Bool)
  | int (n : Int)
  | str (s : String)
  | list (xs : List PyVal)
  | dict (kvs : List (String × PyVal))
  | obj (attrs : List (String × PyVal)) (hasDump : Bool) (rep : String)

/-- First-match dictionary lookup, modelling `dict.get` on Python dicts
(which cannot hold duplicate keys). -/
def dlookup (kvs : List (String × PyVal)) (k : String) : Option PyVal :=
  match kvs with
  | [] => Option.none
  | (k2, v) :: rest => if k2 = k then some v else dlookup rest k

/-- Python truthiness (`bool(v)`). -/
def truthy : PyVal → Bool
  | PyVal.none => false
  | PyVal.bool b => b
  | PyVal.int n => n != 0
  | PyVal.str s => !s.isEmpty
  | PyVal.list xs => !xs.isEmpty
  | PyVal.dict kvs => !kvs.isEmpty
  | PyVal.obj _ _ _ => true

/-- Characters stripped by Python `str.strip()`. -/
def pyIsSpace (c : Char) : Bool :=
  c = Char.ofNat 32 || c = Char.ofNat 9 || c = Char.ofNat 10 ||
  c = Char.ofNat 13 || c = Char.ofNat 11 || c = Char.ofNat 12

/-- Python `str.strip()`. -/
def pyStrip (s : String) : String :=
  String.mk (((s.toList.dropWhile pyIsSpace).reverse.dropWhile pyIsSpace).reverse)

/-- Escaping of one character inside a JSON string literal. -/
def jsonEscapeChar (c : Char) : String :=
  if c = Char.ofNat 34 then String.mk [Char.ofNat 92, Char.ofNat 34]
  else if c = Char.ofNat 92 then String.mk [Char.ofNat 92, Char.ofNat 92]
  else if c = Char.ofNat 10 then String.mk [Char.ofNat 92, Char.ofNat 110]
  else if c = Char.ofNat 13 then String.mk [Char.ofNat 92, Char.ofNat 114]
  else if c = Char.ofNat 9 then String.mk [Char.ofNat 92, Char.ofNat 116]
  else String.singleton c

/-- JSON string literal (with `ensure_ascii=False` non-ASCII passes through). -/
def jsonQuote (s : String) : String :=
  "\"" ++ String.join (s.toList.map jsonEscapeChar) ++ "\""

mutual

/-- `json.dumps(v, ensure_ascii=False)`: `Option.none` models the
`TypeError` raised on a non-serializable object. -/
def jsonDumps : PyVal → Option String
  | PyVal.none => some "null"
  | PyVal.bool b => some (if b then "true" else "false")
  | PyVal.int n => some (toString n)
  | PyVal.str s => some (jsonQuote s)
  | PyVal.list xs =>
    match jsonDumpsL xs with
    | some parts => some ("[" ++ String.intercalate ", " parts ++ "]")
    | Option.none => Option.none
  | PyVal.dict kvs =>
    match jsonDumpsD kvs with
    | some parts => some ("\x7b" ++ String.intercalate ", " parts ++ "\x7d")
    | Option.none => Option.none
  | PyVal.obj _ _ _ => Option.none

def jsonDumpsL : List PyVal → Option (List String)
  | [] => some []
  | v :: vs =>
    match jsonDumps v, jsonDumpsL vs with
    | some s, some ss => some (s :: ss)
    | _, _ => Option.none

def jsonDumpsD : List (String × PyVal) → Option (List String)
  | [] => some []
  | (k, v) :: kvs =>
    match jsonDumps v, jsonDumpsD kvs with
    | some s, some ss => some ((jsonQuote k ++ ": " ++ s) :: ss)
    | _, _ => Option.none

end

/-- Python `repr` of a string (single-quoted, escaping backslash and quote). -/
def strRepr (s : String) : String :=
  let esc := fun (c : Char) =>
    if c = Char.ofNat 92 then String.mk [Char.ofNat 92, Char.ofNat 92]
    else if c = Char.ofNat 39 then String.mk [Char.ofNat 92, Char.ofNat 39]
    else String.singleton c
  String.singleton (Char.ofNat 39) ++ String.join (s.toList.map esc) ++
    String.singleton (Char.ofNat 39)

mutual

/-- Python `repr`. -/
def pyRepr : PyVal → String
  | PyVal.none => "None"
  | PyVal.bool b => if b then "True" else "False"
  | PyVal.int n => toString n
  | PyVal.str s => strRepr s
  | PyVal.list xs => "[" ++ String.intercalate ", " (pyReprL xs) ++ "]"
  | PyVal.dict kvs => "\x7b" ++ String.intercalate ", " (pyReprD kvs) ++ "\x7d"
  | PyVal.obj _ _ rep => rep

def pyReprL : List PyVal → List String
  | [] => []
  | v :: vs => pyRepr v :: pyReprL vs

def pyReprD : List (String × PyVal) → List String
  | [] => []
  | (k, v) :: kvs => (strRepr k ++ ": " ++ pyRepr v) :: pyReprD kvs

end

/-- Python `str`: identical to `repr` except on strings (and our opaque
objects carry `repr` as their `str` as well, the CPython default). -/
def pyStr (v : PyVal) : String :=
  match v with
  | PyVal.str s => s
  | other => pyRepr other

/-- `getattr(v, key)` when it resolves: only opaque objects carry
attributes; dicts, lists, strings, numbers do not have these attributes. -/
def getattrPy (v : PyVal) (key : String) : Option PyVal :=
  match v with
  | PyVal.obj attrs _ _ => dlookup attrs key
  | _ => Option.none

/-- `getattr(v, key, None)`. -/
def getattrD (v : PyVal) (key : String) : PyVal :=
  (getattrPy v key).getD PyVal.none

/-- One normalized content segment, the dict
`\x7b"type": "text", "text": ...\x7d` built by `_to_text_segment`. -/
structure TextSegment where
  type : String
  text : String
deriving DecidableEq, Repr

/-- The `if hasattr(segment, "model_dump"): segment = segment.model_dump()`
step of `_to_text_segment` (bot.py lines 271-272). -/
def modelDumped (seg0 : PyVal) : PyVal :=
  match seg0 with
  | PyVal.obj attrs true _ => PyVal.dict attrs
  | s => s

/-- Embedding of `_to_text_segment` (bot.py lines 270-286): pydantic
segments are dumped to a dict first (`modelDumped`); a dict tagged
`type == "text"` with a `"text"` key passes through via `str`; other dicts
are JSON-encoded with a `str` fallback on `TypeError`; plain strings pass
through; anything else is JSON-encoded with a `repr` fallback on
`TypeError`. -/
def toTextSegment (seg0 : PyVal) : TextSegment :=
  match modelDumped seg0 with
  | PyVal.dict kvs =>
    (match dlookup kvs "type", dlookup kvs "text" with
     | some (PyVal.str "text"), some txtv => ⟨"text", pyStr txtv⟩
     | _, _ =>
       match jsonDumps (PyVal.dict kvs) with
       | some s => ⟨"text", s⟩
       | Option.none => ⟨"text", pyStr (PyVal.dict kvs)⟩)
  | PyVal.str s => ⟨"text", s⟩
  | other =>
    match jsonDumps other with
    | some s => ⟨"text", s⟩
    | Option.none => ⟨"text", pyRepr other⟩

/-- The `content_segments` built from `getattr(mcp_result, "content", None)`
when that attribute is a list (bot.py lines 288-292). -/
def contentSegmentsOf (m : PyVal) : List TextSegment :=
  match getattrD m "content" with
  | PyVal.list segs => segs.map toTextSegment
  | _ => []

/-- The fallback payload chain
`getattr(m, "data", None) or getattr(m, "structured_content", None) or
getattr(m, "content", None) or m` (bot.py line 295). -/
def payloadOf (m : PyVal) : PyVal :=
  let d := getattrD m "data"
  if truthy d then d else
  let sc := getattrD m "structured_content"
  if truthy sc then sc else
  let c := getattrD m "content"
  if truthy c then c else m

/-- Serialization of the fallback payload into a single text segment
(bot.py lines 296-303): strings pass through, anything else is
JSON-encoded with a `repr` fallback on `TypeError`. -/
def serializePayload (payload : PyVal) : TextSegment :=
  match payload with
  | PyVal.str s => ⟨"text", s⟩
  | p =>
    match jsonDumps p with
    | some s => ⟨"text", s⟩
    | Option.none => ⟨"text", pyRepr p⟩

/-- Embedding of the full result normalization (bot.py lines 288-303):
the mapped content segments when any exist, otherwise one serialized
fallback-payload segment. -/
def normalizeResult (m : PyVal) : List TextSegment :=
  if (contentSegmentsOf m).isEmpty then [serializePayload (payloadOf m)]
  else contentSegmentsOf m

/-- One content block of a model turn.  The Python code inspects only the
`type` field and, for `tool_use` blocks, `id`, `name`, `input`; blocks of
any other type are ignored by both the text-gathering and the execution
path, which `other` captures. -/
inductive ContentBlock where
  | text (t : String)
  | toolUse (id : String) (name : String) (input : PyVal)
  | other (ty : String)

/-- One response of the language-model service: `stop_reason` plus content
blocks. -/
structure ModelResponse where
  stop_reason : Option String
  content : List ContentBlock

/-- One tool-result block appended by the loop (a dict with keys
`type = "tool_result"`, `tool_use_id`, `content`, `is_error`). -/
structure ToolResultBlock where
  tool_use_id : String
  content : List TextSegment
  is_error : Bool

/-- One turn of the conversation history.  `toolResults` models the
`role = "user"` message whose content is exactly the list of tool-result
blocks of one round. -/
inductive Turn where
  | user (text : String)
  | assistant (content : List ContentBlock)
  | toolResults (blocks : List ToolResultBlock)

/-- The tool-execution service: `Except.error e` models `call_tool` (or the
logging `json.dumps` preceding it) raising, with `e` the `repr` of the
exception. -/
abbrev CallTool := String → PyVal → Except String PyVal

/-- The `tool_use` blocks of a turn, in emitted order, as
`(id, name, input)` triples. -/
def toolRequests (content : List ContentBlock) : List (String × String × PyVal) :=
  content.filterMap fun cb =>
    match cb with
    | ContentBlock.toolUse i n inp => some (i, n, inp)
    | _ => Option.none

/-- Execution of a single `tool_use` block (bot.py lines 264-317): on
success the normalized segments with `is_error = False`, on any raise a
single `Tool error: ...` text segment with `is_error = True`. -/
def execOne (ct : CallTool) (reqId : String) (name : String) (input : PyVal) :
    ToolResultBlock :=
  match ct name input with
  | Except.ok res => ⟨reqId, normalizeResult res, false⟩
  | Except.error e => ⟨reqId, [⟨"text", "Tool error: " ++ e⟩], true⟩

/-- The `for cb in content_blocks` loop building `tool_results_blocks`
(bot.py lines 254-317): non-`tool_use` blocks are skipped, each `tool_use`
block contributes exactly one result block, in order. -/
def executeTools (ct : CallTool) : List ContentBlock → List ToolResultBlock
  | [] => []
  | ContentBlock.toolUse i n inp :: rest => execOne ct i n inp :: executeTools ct rest
  | _ :: rest => executeTools ct rest

/-- The `texts` gathered from a terminal turn (bot.py lines 244-248). -/
def textsOf (content : List ContentBlock) : List String :=
  content.filterMap fun cb =>
    match cb with
    | ContentBlock.text t => some t
    | _ => Option.none

/-- `"\n".join(texts).strip() or "(no text returned)"` (bot.py line 249). -/
def finalText (texts : List String) : String :=
  let joined := pyStrip (String.intercalate "\n" texts)
  if joined = "" then "(no text returned)" else joined

/-- The `while True` loop of `ask_claude_with_mcp` (bot.py lines 217-327).
The language-model service is supplied as a script of responses, one per
round; `Except.error` in the script models `messages.create` raising and an
exhausted script models a round whose model request never completes — in
both cases the whole run fails (`Option.none`) exactly as the Python
function propagates the exception. -/
def runLoop (ct : CallTool) :
    List (Except String ModelResponse) → List Turn → Option (String × List Turn)
  | [], _ => Option.none
  | Except.error _ :: _, _ => Option.none
  | Except.ok resp :: rest, history =>
    let history := history ++ [Turn.assistant resp.content]
    if resp.stop_reason ≠ some "tool_use" then
      some (finalText (textsOf resp.content), history)
    else
      runLoop ct rest
        (history ++ [Turn.toolResults (executeTools ct resp.content)])

/-- The per-process conversation store `histories` (conversation id to
stored turns, empty when never written). -/
abbrev Histories := Nat → List Turn

def emptyHistories : Histories := fun _ => []

/-- `histories[chat_id] = value`. -/
def setHist (store : Histories) (cid : Nat) (v : List Turn) : Histories :=
  fun k => if k = cid then v else store k

/-- Python `xs[-n:]`. -/
def takeLast (n : Nat) (xs : List α) : List α :=
  xs.drop (xs.length - n)

/-- Embedding of one full `ask_claude_with_mcp` exchange (bot.py lines
204-327).  The in-flight history is built on a fresh list
(`history = history + [...]` in the source, never aliasing the stored
list); the store is written only by the terminal
`histories[chat_id] = history[-20:]`, so a failed run leaves the store
exactly as it was. -/
def runExchange (ct : CallTool) (script : List (Except String ModelResponse))
    (store : Histories) (cid : Nat) (txt : String) :
    Option String × Histories :=
  match runLoop ct script (store cid ++ [Turn.user txt]) with
  | Option.none => (Option.none, store)
  | some (final, h) => (some final, setHist store cid (takeLast 20 h))

/-- Sequential exchanges on one conversation id, the same model script per
exchange. -/
def runExchanges (ct : CallTool) (script : List (Except String ModelResponse))
    (store : Histories) (cid : Nat) : List String → Histories
  | [] => store
  | t :: ts => runExchanges ct script ((runExchange ct script store cid t).2) cid ts

/-- A remote tool descriptor: either an object exposing fields as
attributes only (pydantic-style, no `.get`), or a plain mapping (dict,
whose keys are not attributes). -/
inductive ToolDescr where
  | objD (attrs : List (String × PyVal))
  | mapD (entries : List (String × PyVal))

/-- `getattr(t, key, dflt)` on a descriptor. -/
def getattrT (t : ToolDescr) (key : String) (dflt : PyVal) : PyVal :=
  match t with
  | ToolDescr.objD attrs => (dlookup attrs key).getD dflt
  | ToolDescr.mapD _ => dflt

/-- `t.get(key, dflt)` on a descriptor: raises `AttributeError` on an
object-style descriptor (which has no `.get` method). -/
def dictGet (t : ToolDescr) (key : String) (dflt : PyVal) : Except String PyVal :=
  match t with
  | ToolDescr.objD _ => Except.error "AttributeError: object has no attribute get"
  | ToolDescr.mapD es => Except.ok ((dlookup es key).getD dflt)

/-- `getattr(t, "name", None) or t.get("name")` (bot.py line 154). -/
def resolveName (t : ToolDescr) : Except String PyVal :=
  let a := getattrT t "name" PyVal.none
  if truthy a then Except.ok a else dictGet t "name" PyVal.none

/-- `getattr(t, "description", "") or t.get("description", "")`
(bot.py line 155). -/
def resolveDesc (t : ToolDescr) : Except String PyVal :=
  let a := getattrT t "description" (PyVal.str "")
  if truthy a then Except.ok a else dictGet t "description" (PyVal.str "")

/-- The input-schema chain (bot.py lines 158-164):
`getattr(t, "inputSchema", None) or getattr(t, "input_schema", None) or
t.get("inputSchema") or t.get("input_schema") or \x7b\x7d`. -/
def resolveSchema (t : ToolDescr) : Except String PyVal :=
  let a := getattrT t "inputSchema" PyVal.none
  if truthy a then Except.ok a else
  let b := getattrT t "input_schema" PyVal.none
  if truthy b then Except.ok b else do
    let c ← dictGet t "inputSchema" PyVal.none
    if truthy c then pure c else do
      let d ← dictGet t "input_schema" PyVal.none
      if truthy d then pure d else pure (PyVal.dict [])

/-- One emitted Claude tool schema entry. -/
structure ToolSchema where
  name : PyVal
  description : PyVal
  input_schema : PyVal

/-- One iteration of the `for t in tools` loop of `claude_tool_schemas`
(bot.py lines 152-173): resolve name, description and schema in source
order, then skip the descriptor when the name is falsy. -/
def convertDescr (t : ToolDescr) : Except String (Option ToolSchema) := do
  let name ← resolveName t
  let desc ← resolveDesc t
  let schema ← resolveSchema t
  if truthy name then pure (some ⟨name, desc, schema⟩) else pure Option.none

/-- Embedding of `MCPBridge.claude_tool_schemas` (bot.py lines 144-175)
over an already-fetched descriptor list; a raise in any iteration aborts
the whole conversion. -/
def claudeToolSchemas : List ToolDescr → Except String (List ToolSchema)
  | [] => Except.ok []
  | t :: ts => do
    let head ← convertDescr t
    let rest ← claudeToolSchemas ts
    match head with
    | some s => pure (s :: rest)
    | Option.none => pure rest

/-- An optional-sign digit run as an integer, `Option.none` when the run
is empty or holds a non-digit. -/
def digitsToInt (ds : List Char) (sign : Int) : Option Int :=
  if ds.isEmpty then Option.none
  else if ds.all Char.isDigit then
    some (sign * ds.foldl (fun acc c => acc * 10 + ((c.toNat : Int) - 48)) 0)
  else Option.none

/-- Python `int(s)` on an already-stripped chunk, restricted to the
optional-sign decimal grammar (the underscore and non-ASCII digit forms
accepted by CPython do not occur in the inputs this model is used on). -/
def parseIntPy (s : String) : Option Int :=
  match s.toList with
  | [] => Option.none
  | c :: rest =>
    if c = Char.ofNat 45 then digitsToInt rest (-1)
    else if c = Char.ofNat 43 then digitsToInt rest 1
    else digitsToInt (c :: rest) 1

def splitCommaAux : List Char → List Char → List String
  | [], acc => [String.mk acc.reverse]
  | c :: rest, acc =>
    if c = Char.ofNat 44 then String.mk acc.reverse :: splitCommaAux rest []
    else splitCommaAux rest (c :: acc)

/-- Python `s.split(",")`. -/
def splitOnComma (s : String) : List String :=
  splitCommaAux s.toList []

/-- Embedding of `_parse_allowed_ids` (bot.py lines 65-77): split on
commas, strip, skip empties, parse ints, skip entries that fail to parse.
The set is modelled as a duplicate-free list. -/
def parseAllowedIds (raw : String) : List Int :=
  if raw = "" then [] else
  (splitOnComma raw).foldl
    (fun ids chunk =>
      let candidate := pyStrip chunk
      if candidate = "" then ids else
      match parseIntPy candidate with
      | some n => if ids.contains n then ids else ids ++ [n]
      | Option.none => ids)
    []

/-- Embedding of `_is_user_allowed` (bot.py lines 82-83):
`not ALLOWED_TELEGRAM_USER_IDS or user_id in ALLOWED_TELEGRAM_USER_IDS`. -/
def isUserAllowed (raw : String) (userId : Int) : Bool :=
  (parseAllowedIds raw).isEmpty || (parseAllowedIds raw).contains userId

/-! ## Helper lemmas -/

theorem toTextSegment_type (s : PyVal) : (toTextSegment s).type = "text" := by
  unfold toTextSegment
  repeat' split
  all_goals rfl

theorem serializePayload_type (p : PyVal) : (serializePayload p).type = "text" := by
  unfold serializePayload
  repeat' split
  all_goals rfl

theorem contentSegmentsOf_type (m : PyVal) :
    ∀ s ∈ contentSegmentsOf m, s.type = "text" := by
  unfold contentSegmentsOf
  split
  · intro s hs
    rcases List.mem_map.mp hs with ⟨x, _, rfl⟩
    exact toTextSegment_type x
  · intro s hs
    simp at hs

theorem executeTools_eq_map (ct : CallTool) (content : List ContentBlock) :
    executeTools ct content
      = (toolRequests content).map (fun r => execOne ct r.1 r.2.1 r.2.2) := by
  induction content with
  | nil => rfl
  | cons cb rest ih =>
    cases cb with
    | text t => simpa [executeTools, toolRequests, List.filterMap_cons] using ih
    | toolUse i n inp => simpa [executeTools, toolRequests, List.filterMap_cons] using ih
    | other ty => simpa [executeTools, toolRequests, List.filterMap_cons] using ih

theorem runLoop_toolUse_round (ct : CallTool) (resp : ModelResponse)
    (rest : List (Except String ModelResponse)) (h : List Turn)
    (hstop : resp.stop_reason = some "tool_use") :
    runLoop ct (Except.ok resp :: rest) h
      = runLoop ct rest (h ++ [Turn.assistant resp.content,
          Turn.toolResults (executeTools ct resp.content)]) := by
  simp [runLoop, hstop]

theorem runLoop_final_round (ct : CallTool) (resp : ModelResponse)
    (rest : List (Except String ModelResponse)) (h : List Turn)
    (hstop : resp.stop_reason ≠ some "tool_use") :
    runLoop ct (Except.ok resp :: rest) h
      = some (finalText (textsOf resp.content), h ++ [Turn.assistant resp.content]) := by
  simp [runLoop, hstop]

theorem takeLast_length_le (n : Nat) (xs : List α) : (takeLast n xs).length ≤ n := by
  simp [takeLast]
  omega

theorem takeLast_suffix (n : Nat) (xs : List α) : takeLast n xs <:+ xs :=
  List.drop_suffix _ _

theorem execOne_tool_use_id (ct : CallTool) (i n : String) (inp : PyVal) :
    (execOne ct i n inp).tool_use_id = i := by
  unfold execOne
  split
  all_goals rfl

/-! ## Sample values used by the witness theorems -/

def sampleCT : CallTool := fun _ _ => Except.ok (PyVal.str "ok")

def sampleScript : List (Except String ModelResponse) :=
  [Except.ok ⟨some "end_turn", [ContentBlock.text "done"]⟩]

def ctC1 : CallTool := fun name _ =>
  if name = "quote" then
    Except.ok (PyVal.obj
      [("content", PyVal.list
        [PyVal.dict [("type", PyVal.str "text"), ("text", PyVal.str "BTC 65000")]])]
      false "<CallToolResult>")
  else Except.error "ConnectionRefused()"

def respC1 : ModelResponse :=
  ⟨some "tool_use",
   [ContentBlock.toolUse "t1" "quote" (PyVal.dict [("symbol", PyVal.str "BTC")]),
    ContentBlock.text "let me check",
    ContentBlock.toolUse "t1" "risk" (PyVal.dict []),
    ContentBlock.toolUse "t2" "quote" (PyVal.dict [])]⟩

/-! ## Claims -/

/-- Claim C1: in every round whose assistant turn signals tool use, the
loop appends (immediately after the assistant turn) a single turn whose
content is exactly one tool-result block per `tool_use` request block, in
emitted order, each block computed independently from its own request (so
duplicate ids each get their own block), with `tool_use_id` matching the
request id, and nothing else in that turn. -/
theorem c1_request_result_pairing (ct : CallTool) (resp : ModelResponse)
    (rest : List (Except String ModelResponse)) (h : List Turn)
    (hstop : resp.stop_reason = some "tool_use") :
    runLoop ct (Except.ok resp :: rest) h
      = runLoop ct rest (h ++ [Turn.assistant resp.content,
          Turn.toolResults (executeTools ct resp.content)])
    ∧ executeTools ct resp.content
        = (toolRequests resp.content).map (fun r => execOne ct r.1 r.2.1 r.2.2)
    ∧ (executeTools ct resp.content).map (fun b => b.tool_use_id)
        = (toolRequests resp.content).map (fun r => r.1) := by
  refine ⟨runLoop_toolUse_round ct resp rest h hstop,
    executeTools_eq_map ct resp.content, ?_⟩
  rw [executeTools_eq_map, List.map_map]
  simp [Function.comp, execOne_tool_use_id]

/-- Claim C1 witness: a concrete tool-use round with duplicate request ids
(`t1` twice) and an interleaved text block. -/
theorem c1_witness :
    runLoop ctC1 (Except.ok respC1 :: []) []
      = runLoop ctC1 [] ([] ++ [Turn.assistant respC1.content,
          Turn.toolResults (executeTools ctC1 respC1.content)])
    ∧ executeTools ctC1 respC1.content
        = (toolRequests respC1.content).map (fun r => execOne ctC1 r.1 r.2.1 r.2.2)
    ∧ (executeTools ctC1 respC1.content).map (fun b => b.tool_use_id)
        = (toolRequests respC1.content).map (fun r => r.1) :=
  c1_request_result_pairing ctC1 respC1 [] [] rfl

/-- Claim C2: when the tool service raises for an invocation, the loop does
not fail: the round still completes (appending the result turn and moving
on to the next model round or final answer), and the block for that request
is error-tagged with a single text segment describing the error. -/
theorem c2_error_swallowing (ct : CallTool) (resp : ModelResponse)
    (rest : List (Except String ModelResponse)) (h : List Turn)
    (hstop : resp.stop_reason = some "tool_use")
    (i : Nat) (hi : i < (toolRequests resp.content).length) (e : String)
    (herr : ct ((toolRequests resp.content).get ⟨i, hi⟩).2.1
              ((toolRequests resp.content).get ⟨i, hi⟩).2.2 = Except.error e) :
    runLoop ct (Except.ok resp :: rest) h
      = runLoop ct rest (h ++ [Turn.assistant resp.content,
          Turn.toolResults (executeTools ct resp.content)])
    ∧ ∃ hj : i < (executeTools ct resp.content).length,
        (executeTools ct resp.content).get ⟨i, hj⟩
          = ⟨((toolRequests resp.content).get ⟨i, hi⟩).1,
             [⟨"text", "Tool error: " ++ e⟩], true⟩ := by
  refine ⟨runLoop_toolUse_round ct resp rest h hstop, ?_⟩
  have hlen : (executeTools ct resp.content).length
      = (toolRequests resp.content).length := by
    rw [executeTools_eq_map]
    simp
  refine ⟨by omega, ?_⟩
  simp only [executeTools_eq_map, List.get_eq_getElem, List.getElem_map]
  simp only [List.get_eq_getElem] at herr
  simp [execOne, herr]

/-- Claim C2 witness: in the concrete round `respC1`, the second request
(`t1`, tool `risk`) raises `ConnectionRefused()` and yields the
error-tagged block. -/
theorem c2_witness :
    runLoop ctC1 (Except.ok respC1 :: []) []
      = runLoop ctC1 [] ([] ++ [Turn.assistant respC1.content,
          Turn.toolResults (executeTools ctC1 respC1.content)])
    ∧ ∃ hj : 1 < (executeTools ctC1 respC1.content).length,
        (executeTools ctC1 respC1.content).get ⟨1, hj⟩
          = ⟨((toolRequests respC1.content).get ⟨1, by decide⟩).1,
             [⟨"text", "Tool error: " ++ "ConnectionRefused()"⟩], true⟩ :=
  c2_error_swallowing ctC1 respC1 [] [] rfl 1 (by decide) "ConnectionRefused()" rfl

/-- Claim C3: the result normalizer is total (its embedding needs no error
case): for every raw result value it produces at least one segment, and
every produced segment is a `type = "text"` segment. -/
theorem c3_normalize_total (raw : PyVal) :
    normalizeResult raw ≠ [] ∧ ∀ s ∈ normalizeResult raw, s.type = "text" := by
  unfold normalizeResult
  by_cases hcs : (contentSegmentsOf raw).isEmpty
  · rw [if_pos hcs]
    refine ⟨by simp, ?_⟩
    intro s hs
    rw [List.mem_singleton] at hs
    subst hs
    exact serializePayload_type _
  · rw [if_neg hcs]
    refine ⟨fun hnil => hcs (by simp [hnil]), contentSegmentsOf_type raw⟩

/-- Claim C3 witness: the normalizer at a bare non-serializable object. -/
theorem c3_witness :
    normalizeResult (PyVal.obj [] false "<X>") ≠ []
    ∧ ∀ s ∈ normalizeResult (PyVal.obj [] false "<X>"), s.type = "text" :=
  c3_normalize_total (PyVal.obj [] false "<X>")

set_option maxRecDepth 100000 in
/-- Claim C4: after a completed exchange the stored history for the
conversation id is the last-20 slice of the committed full history — at
most 20 turns, a suffix of the chronological history (most recent, in
order, no gaps, oldest dropped) — and 25 sequential exchanges on one id
leave exactly 20 stored turns. -/
theorem c4_history_cap :
    (∀ (ct : CallTool) (script : List (Except String ModelResponse))
       (store : Histories) (cid : Nat) (txt ans : String) (store' : Histories),
      runExchange ct script store cid txt = (some ans, store') →
      ∃ h, runLoop ct script (store cid ++ [Turn.user txt]) = some (ans, h)
        ∧ store' cid = takeLast 20 h
        ∧ (store' cid).length ≤ 20
        ∧ store' cid <:+ h)
    ∧ ((runExchanges sampleCT sampleScript emptyHistories 0
        (List.replicate 25 "q")) 0).length = 20 := by
  constructor
  · intro ct script store cid txt ans store' hrun
    unfold runExchange at hrun
    rcases hloop : runLoop ct script (store cid ++ [Turn.user txt]) with _ | p
    · rw [hloop] at hrun
      simp at hrun
    · rcases p with ⟨fin, h⟩
      rw [hloop] at hrun
      rw [Prod.mk.injEq] at hrun
      rcases hrun with ⟨hfin, hstore⟩
      rw [Option.some.injEq] at hfin
      subst hfin
      subst hstore
      refine ⟨h, rfl, ?_, ?_, ?_⟩
      · simp [setHist]
      · simp only [setHist, if_pos rfl]
        exact takeLast_length_le 20 h
      · simp only [setHist, if_pos rfl]
        exact takeLast_suffix 20 h
  · decide

def c4Store : Histories := (runExchange sampleCT sampleScript emptyHistories 0 "q").2

/-- Claim C4 witness: one concrete completed exchange. -/
theorem c4_witness :
    ∃ h, runLoop sampleCT sampleScript (emptyHistories 0 ++ [Turn.user "q"])
        = some ("done", h)
      ∧ c4Store 0 = takeLast 20 h
      ∧ (c4Store 0).length ≤ 20
      ∧ c4Store 0 <:+ h :=
  c4_history_cap.1 sampleCT sampleScript emptyHistories 0 "q" "done" c4Store rfl

/-- Claim C8: the store is only written by the terminal trim: a failed
exchange (model request failing at any round) leaves the store exactly as
committed before, and no conversation id other than the exchanged one is
ever touched. -/
theorem c8_store_commit (ct : CallTool) (script : List (Except String ModelResponse))
    (store : Histories) (cid : Nat) (txt : String) :
    ((runExchange ct script store cid txt).1 = Option.none →
      (runExchange ct script store cid txt).2 = store)
    ∧ ∀ k, k ≠ cid → (runExchange ct script store cid txt).2 k = store k := by
  unfold runExchange
  rcases hloop : runLoop ct script (store cid ++ [Turn.user txt]) with _ | p
  · exact ⟨fun _ => rfl, fun k _ => rfl⟩
  · rcases p with ⟨fin, h⟩
    constructor
    · intro hnone
      simp at hnone
    · intro k hk
      simp [setHist, hk]

/-- Claim C8 witness: a failing exchange (model raises before any round
completes) leaves the store untouched, and a conversation id other than
the exchanged one is untouched. -/
theorem c8_witness :
    (runExchange sampleCT [] emptyHistories 0 "hello").2 = emptyHistories
    ∧ (runExchange sampleCT [] emptyHistories 0 "hello").2 1 = emptyHistories 1 :=
  ⟨(c8_store_commit sampleCT [] emptyHistories 0 "hello").1 rfl,
   (c8_store_commit sampleCT [] emptyHistories 0 "hello").2 1 (by decide)⟩

def respEmptyToolUse : ModelResponse := ⟨some "tool_use", [ContentBlock.text "partial"]⟩

def respFinalTurn : ModelResponse := ⟨some "end_turn", [ContentBlock.text "final"]⟩

/-- Claim C5 counterexample: a turn that signals tool use but contains
zero request blocks is NOT terminal — the loop appends an (empty)
tool-result turn and runs another model round, returning that later
round's text, not the signalling turn's text. -/
theorem c5_counterexample :
    runLoop sampleCT [Except.ok respEmptyToolUse, Except.ok respFinalTurn] []
      = some ("final",
        [Turn.assistant [ContentBlock.text "partial"],
         Turn.toolResults [],
         Turn.assistant [ContentBlock.text "final"]])
    ∧ ("final" : String) ≠ "partial" :=
  ⟨rfl, by decide⟩

/-- Claim C5 (amended): on a tool-use-signalled turn with zero
tool-invocation-request blocks the loop executes nothing, appends a
tool-result turn with an empty block list, and proceeds to another model
round instead of terminating. -/
theorem c5_empty_requests_round (ct : CallTool) (resp : ModelResponse)
    (rest : List (Except String ModelResponse)) (h : List Turn)
    (hstop : resp.stop_reason = some "tool_use")
    (hempty : toolRequests resp.content = []) :
    runLoop ct (Except.ok resp :: rest) h
      = runLoop ct rest (h ++ [Turn.assistant resp.content, Turn.toolResults []]) := by
  have hround := runLoop_toolUse_round ct resp rest h hstop
  rw [executeTools_eq_map, hempty] at hround
  simpa using hround

/-- Claim C5 witness: the concrete empty-request round proceeds to the
next scripted model round. -/
theorem c5_witness :
    runLoop sampleCT (Except.ok respEmptyToolUse :: [Except.ok respFinalTurn]) []
      = runLoop sampleCT [Except.ok respFinalTurn]
          ([] ++ [Turn.assistant respEmptyToolUse.content, Turn.toolResults []]) :=
  c5_empty_requests_round sampleCT respEmptyToolUse [Except.ok respFinalTurn] [] rfl rfl

/-- Claim C6 counterexample: for a terminal turn with the single text
block `" hi "` the newline-join is `" hi "` (non-empty, so the claim
predicts it is returned as-is), but the loop returns the stripped `"hi"`. -/
theorem c6_counterexample :
    runLoop sampleCT [Except.ok ⟨some "end_turn", [ContentBlock.text " hi "]⟩] []
      = some ("hi", [Turn.assistant [ContentBlock.text " hi "]])
    ∧ String.intercalate "\n" (textsOf [ContentBlock.text " hi "]) = " hi "
    ∧ ("hi" : String) ≠ " hi " :=
  ⟨rfl, rfl, by decide⟩

/-- Claim C6 (amended): a terminal turn returns the
whitespace-STRIPPED newline-join of its text blocks, with the literal
fallback when the stripped join is empty (in particular for no text
blocks or whitespace-only text). -/
theorem c6_final_text (ct : CallTool) (resp : ModelResponse)
    (rest : List (Except String ModelResponse)) (h : List Turn)
    (hstop : resp.stop_reason ≠ some "tool_use") :
    runLoop ct (Except.ok resp :: rest) h
      = some (finalText (textsOf resp.content), h ++ [Turn.assistant resp.content])
    ∧ (pyStrip (String.intercalate "\n" (textsOf resp.content)) ≠ "" →
        finalText (textsOf resp.content)
          = pyStrip (String.intercalate "\n" (textsOf resp.content)))
    ∧ (pyStrip (String.intercalate "\n" (textsOf resp.content)) = "" →
        finalText (textsOf resp.content) = "(no text returned)") := by
  refine ⟨runLoop_final_round ct resp rest h hstop, ?_, ?_⟩
  · intro hne
    simp [finalText, hne]
  · intro heq
    simp [finalText, heq]

/-- Claim C6 witness: a concrete terminal turn, with the stripped join
nonempty and returned. -/
theorem c6_witness :
    runLoop sampleCT (Except.ok respFinalTurn :: []) []
      = some (finalText (textsOf respFinalTurn.content),
          [] ++ [Turn.assistant respFinalTurn.content])
    ∧ finalText (textsOf respFinalTurn.content)
        = pyStrip (String.intercalate "\n" (textsOf respFinalTurn.content)) :=
  ⟨(c6_final_text sampleCT respFinalTurn [] [] (by decide)).1,
   (c6_final_text sampleCT respFinalTurn [] [] (by decide)).2.1 (by decide)⟩

def c7Input : PyVal := PyVal.obj [("data", PyVal.str "")] false "<CallToolResult>"

/-- Claim C7 counterexample: a result whose `data` attribute EXISTS and is
the string `""`.  The claim predicts the string passes through
unserialized (one segment with text `""`); the code's `or`-chain skips the
falsy `data` and serializes the whole raw result instead. -/
theorem c7_counterexample :
    getattrPy c7Input "data" = some (PyVal.str "")
    ∧ normalizeResult c7Input = [⟨"text", "<CallToolResult>"⟩]
    ∧ normalizeResult c7Input ≠ [⟨"text", ""⟩] :=
  ⟨rfl, rfl, by decide⟩

/-- Claim C7 (amended): when no content segments exist, the fallback picks
the first TRUTHY value among the `data`, `structured_content` and
`content` attributes (falsy values — absent, `None`, `""`, `0`, empty
containers — fall through), else the whole raw result, serialized into
exactly one text segment, a string payload passing through unserialized. -/
theorem c7_fallback_priority (m : PyVal)
    (hempty : contentSegmentsOf m = []) :
    normalizeResult m = [serializePayload (payloadOf m)]
    ∧ (truthy (getattrD m "data") = true → payloadOf m = getattrD m "data")
    ∧ (truthy (getattrD m "data") = false →
        truthy (getattrD m "structured_content") = true →
        payloadOf m = getattrD m "structured_content")
    ∧ (truthy (getattrD m "data") = false →
        truthy (getattrD m "structured_content") = false →
        truthy (getattrD m "content") = true →
        payloadOf m = getattrD m "content")
    ∧ (truthy (getattrD m "data") = false →
        truthy (getattrD m "structured_content") = false →
        truthy (getattrD m "content") = false →
        payloadOf m = m)
    ∧ ∀ s, payloadOf m = PyVal.str s → serializePayload (payloadOf m) = ⟨"text", s⟩ := by
  refine ⟨by simp [normalizeResult, hempty], ?_, ?_, ?_, ?_, ?_⟩
  · intro h1
    simp [payloadOf, h1]
  · intro h1 h2
    simp [payloadOf, h1, h2]
  · intro h1 h2 h3
    simp [payloadOf, h1, h2, h3]
  · intro h1 h2 h3
    simp [payloadOf, h1, h2, h3]
  · intro s hs
    rw [hs]
    rfl

/-- Claim C7 witness: the concrete result with falsy `data` falls all the
way through to the whole raw result. -/
theorem c7_witness :
    normalizeResult c7Input = [serializePayload (payloadOf c7Input)]
    ∧ payloadOf c7Input = c7Input :=
  ⟨(c7_fallback_priority c7Input rfl).1,
   (c7_fallback_priority c7Input rfl).2.2.2.2.1 rfl rfl rfl⟩

theorem except_bind_ok (a : α) (f : α → Except ε β) :
    (Except.ok a >>= f) = f a := rfl

theorem except_bind_error (e : ε) (f : α → Except ε β) :
    ((Except.error e : Except ε α) >>= f) = Except.error e := rfl

theorem resolveName_mapD (es : List (String × PyVal)) :
    resolveName (ToolDescr.mapD es)
      = Except.ok ((dlookup es "name").getD PyVal.none) := by
  simp [resolveName, getattrT, dictGet, truthy]

theorem truthy_empty_str : truthy (PyVal.str "") = false := rfl

theorem truthy_none : truthy PyVal.none = false := rfl

theorem resolveDesc_mapD (es : List (String × PyVal)) :
    resolveDesc (ToolDescr.mapD es)
      = Except.ok ((dlookup es "description").getD (PyVal.str "")) := by
  simp [resolveDesc, getattrT, dictGet, truthy_empty_str]

theorem resolveSchema_mapD (es : List (String × PyVal)) :
    resolveSchema (ToolDescr.mapD es)
      = Except.ok (if truthy ((dlookup es "inputSchema").getD PyVal.none) = true
          then (dlookup es "inputSchema").getD PyVal.none
          else if truthy ((dlookup es "input_schema").getD PyVal.none) = true
          then (dlookup es "input_schema").getD PyVal.none
          else PyVal.dict []) := by
  simp only [resolveSchema, getattrT, dictGet, except_bind_ok, truthy_none,
    Bool.false_eq_true, if_false]
  split
  · rfl
  · split
    · rfl
    · rfl

theorem convertDescr_some_truthy (t : ToolDescr) (sch : ToolSchema)
    (h : convertDescr t = Except.ok (some sch)) : truthy sch.name = true := by
  unfold convertDescr at h
  rcases hn : resolveName t with e | name
  all_goals rw [hn] at h
  · rw [except_bind_error] at h
    exact Except.noConfusion h
  · rw [except_bind_ok] at h
    rcases hd : resolveDesc t with e | d
    all_goals rw [hd] at h
    · rw [except_bind_error] at h
      exact Except.noConfusion h
    · rw [except_bind_ok] at h
      rcases hs2 : resolveSchema t with e | sc
      all_goals rw [hs2] at h
      · rw [except_bind_error] at h
        exact Except.noConfusion h
      · rw [except_bind_ok] at h
        by_cases ht : truthy name
        · rw [if_pos ht] at h
          have hinj : some (ToolSchema.mk name d sc) = some sch := by
            exact Except.ok.inj h
          rw [← Option.some.inj hinj]
          exact ht
        · rw [if_neg ht] at h
          have hinj : (Option.none : Option ToolSchema) = some sch :=
            Except.ok.inj h
          exact Option.noConfusion hinj

/-- Claim C9 counterexample: an object-attribute-style descriptor with no
resolvable name is NOT skipped — the conversion raises (`t.get("name")` on
an object with no `.get` method), instead of producing the empty
catalog. -/
theorem c9_counterexample :
    claudeToolSchemas [ToolDescr.objD []]
      = Except.error "AttributeError: object has no attribute get"
    ∧ claudeToolSchemas [ToolDescr.objD []] ≠ Except.ok [] := by
  constructor
  · rfl
  · intro h
    have h2 : (Except.error "AttributeError: object has no attribute get"
        : Except String (List ToolSchema)) = Except.ok ([] : List ToolSchema) := by
      rw [← h]
      rfl
    exact Except.noConfusion h2

/-- Claim C9 (amended): mapping-style descriptors lacking a truthy name
are skipped without raising; an object-attribute-style descriptor whose
name attribute is missing or falsy makes the conversion raise; every
emitted entry has a truthy name; the input schema prefers the camel-case
field over the snake-case one and defaults to the empty schema when a
mapping-style descriptor carries neither. -/
theorem c9_schema_catalog :
    (∀ (es : List (String × PyVal)) (ts : List ToolDescr),
      truthy ((dlookup es "name").getD PyVal.none) = false →
      claudeToolSchemas (ToolDescr.mapD es :: ts) = claudeToolSchemas ts)
    ∧ (∀ (attrs : List (String × PyVal)) (ts : List ToolDescr),
        truthy ((dlookup attrs "name").getD PyVal.none) = false →
        ∃ e, claudeToolSchemas (ToolDescr.objD attrs :: ts) = Except.error e)
    ∧ (∀ (ts : List ToolDescr) (out : List ToolSchema),
        claudeToolSchemas ts = Except.ok out → ∀ s ∈ out, truthy s.name = true)
    ∧ (∀ (attrs : List (String × PyVal)) (v : PyVal),
        dlookup attrs "inputSchema" = some v → truthy v = true →
        resolveSchema (ToolDescr.objD attrs) = Except.ok v)
    ∧ (∀ (es : List (String × PyVal)),
        truthy ((dlookup es "inputSchema").getD PyVal.none) = false →
        truthy ((dlookup es "input_schema").getD PyVal.none) = false →
        resolveSchema (ToolDescr.mapD es) = Except.ok (PyVal.dict [])) := by
  refine ⟨?_, ?_, ?_, ?_, ?_⟩
  · intro es ts hname
    have hconv : convertDescr (ToolDescr.mapD es) = Except.ok Option.none := by
      unfold convertDescr
      rw [resolveName_mapD, except_bind_ok, resolveDesc_mapD, except_bind_ok,
        resolveSchema_mapD, except_bind_ok,
        if_neg (by rw [hname]; exact Bool.false_ne_true)]
      rfl
    simp only [claudeToolSchemas, hconv, except_bind_ok]
    rcases hcts : claudeToolSchemas ts with e | out
    · rw [except_bind_error]
    · rw [except_bind_ok]
      rfl
  · intro attrs ts hname
    refine ⟨"AttributeError: object has no attribute get", ?_⟩
    have hconv : convertDescr (ToolDescr.objD attrs)
        = Except.error "AttributeError: object has no attribute get" := by
      unfold convertDescr resolveName
      rw [show getattrT (ToolDescr.objD attrs) "name" PyVal.none
          = (dlookup attrs "name").getD PyVal.none from rfl,
        if_neg (by rw [hname]; exact Bool.false_ne_true)]
      rfl
    simp only [claudeToolSchemas, hconv, except_bind_error]
  · intro ts
    induction ts with
    | nil =>
      intro out hout s hs
      have hnil : ([] : List ToolSchema) = out := Except.ok.inj hout
      rw [← hnil] at hs
      simp at hs
    | cons t ts ih =>
      intro out hout s hs
      rcases hconv : convertDescr t with e | headOpt
      · simp only [claudeToolSchemas, hconv, except_bind_error] at hout
        exact Except.noConfusion hout
      · simp only [claudeToolSchemas, hconv, except_bind_ok] at hout
        rcases hcts : claudeToolSchemas ts with e2 | rest
        · rw [hcts, except_bind_error] at hout
          exact Except.noConfusion hout
        · rw [hcts, except_bind_ok] at hout
          cases headOpt with
          | none =>
            have hro : rest = out := Except.ok.inj hout
            rw [← hro] at hs
            exact ih rest hcts s hs
          | some sch =>
            have hro : sch :: rest = out := Except.ok.inj hout
            rw [← hro] at hs
            rcases List.mem_cons.mp hs with heq | hmem
            · rw [heq]
              exact convertDescr_some_truthy t sch hconv
            · exact ih rest hcts s hmem
  · intro attrs v hv htr
    simp [resolveSchema, getattrT, hv, htr]
  · intro es h1 h2
    rw [resolveSchema_mapD, if_neg (by rw [h1]; exact Bool.false_ne_true),
      if_neg (by rw [h2]; exact Bool.false_ne_true)]

/-- Claim C9 witness: concrete instances of each amended conjunct — a
nameless mapping descriptor skipped, a nameless object descriptor raising,
an emitted entry with truthy name, camel-case schema preference, and the
empty-schema default. -/
theorem c9_witness :
    claudeToolSchemas [ToolDescr.mapD [("description", PyVal.str "x")]]
      = claudeToolSchemas []
    ∧ (∃ e, claudeToolSchemas [ToolDescr.objD [("description", PyVal.str "x")]]
        = Except.error e)
    ∧ truthy (PyVal.str "quote") = true
    ∧ resolveSchema (ToolDescr.objD [("inputSchema", PyVal.dict [("a", PyVal.int 1)])])
        = Except.ok (PyVal.dict [("a", PyVal.int 1)])
    ∧ resolveSchema (ToolDescr.mapD [("name", PyVal.str "quote")])
        = Except.ok (PyVal.dict []) :=
  ⟨c9_schema_catalog.1 [("description", PyVal.str "x")] [] rfl,
   c9_schema_catalog.2.1 [("description", PyVal.str "x")] [] rfl,
   c9_schema_catalog.2.2.1 [ToolDescr.mapD [("name", PyVal.str "quote")]]
     [⟨PyVal.str "quote", PyVal.str "", PyVal.dict []⟩] rfl
     ⟨PyVal.str "quote", PyVal.str "", PyVal.dict []⟩ (by simp),
   c9_schema_catalog.2.2.2.1 [("inputSchema", PyVal.dict [("a", PyVal.int 1)])]
     (PyVal.dict [("a", PyVal.int 1)]) rfl rfl,
   c9_schema_catalog.2.2.2.2 [("name", PyVal.str "quote")] rfl rfl⟩

/-- Claim C10: the authorization check admits every user exactly when the
parsed allow-list is empty (unset, blank, or all entries invalid — parse
failures are skipped, not fatal), and otherwise admits exactly the members
of the parsed set; concretely, a fully-invalid allow-list admits an
arbitrary user. -/
theorem c10_allow_list (raw : String) (uid : Int) :
    (parseAllowedIds raw = [] → isUserAllowed raw uid = true)
    ∧ (parseAllowedIds raw ≠ [] →
        (isUserAllowed raw uid = true ↔ uid ∈ parseAllowedIds raw))
    ∧ isUserAllowed "abc, ,12.5,#" 54321 = true := by
  refine ⟨?_, ?_, by decide⟩
  · intro h
    simp [isUserAllowed, h]
  · intro h
    simp [isUserAllowed, List.isEmpty_iff, h]

/-- Claim C10 witness: the unset allow-list admits everyone; a mixed
valid/invalid list admits exactly its parsed member. -/
theorem c10_witness :
    isUserAllowed "" 7 = true
    ∧ (isUserAllowed "42, x" 42 = true ↔ (42 : Int) ∈ parseAllowedIds "42, x") :=
  ⟨(c10_allow_list "" 7).1 rfl,
   (c10_allow_list "42, x" 42).2.1 (by decide)⟩
